import Mathlib

/-!
Verification development for the pulse mobile client's authentication and
session-management subsystem (AuthService, ApiClient interceptors, the upload
destination store and the login screen success path).

The JavaScript/TypeScript source is shallowly embedded: the secure credential
store is a record of optional string values, asynchronous storage effects
become explicit state passing, the network is a parameter (the server's
response), and JavaScript truthiness of string-or-null values is modelled
explicitly (null and the empty string are falsy).
-/

namespace Pulse

/-- Truthiness of a JavaScript string-or-null value as used in conditions such
as if (accessToken): null/undefined and the empty string are falsy, every
other string is truthy. -/
def truthy : Option String → Bool
  | none => false
  | some s => s != ""

/-- Truthiness of a JavaScript number-or-undefined value: undefined and 0 are
falsy. (NaN never arises in the embedded payloads.) -/
def truthyNum : Option Int → Bool
  | none => false
  | some n => n != 0

/-- The SecureStore contents under the seven SECURE_STORE_KEYS of AuthService.
Each field is the stored string for that key, or none when the key is absent. -/
structure AuthStore where
  vaultUrl : Option String
  codeVerifier : Option String
  state : Option String
  accessToken : Option String
  refreshToken : Option String
  tokenExpiry : Option String
  deviceId : Option String
deriving DecidableEq, Repr

/-- The token payload shape received from the authorization server:
access_token, optional refresh_token, optional expires_in (seconds). -/
structure TokenPayload where
  access_token : Option String
  refresh_token : Option String
  expires_in : Option Int
deriving DecidableEq, Repr

/-- AuthService.storeTokens: requires a truthy access_token, computes the
absolute expiry string when expires_in is truthy (String(Date.now() +
expires_in*1000), which as the decimal rendering of a number is always a
nonempty, hence truthy, string), and writes the access token unconditionally,
the refresh token only when truthy, the expiry only when computed. Keys that
are not written keep their previous stored value. -/
def storeTokens (tokens : TokenPayload) (now : Int) (store : AuthStore) :
    Except String AuthStore :=
  if ¬ truthy tokens.access_token then
    .error "Token response is missing access_token."
  else
    .ok { store with
      accessToken := tokens.access_token
      refreshToken :=
        if truthy tokens.refresh_token then tokens.refresh_token
        else store.refreshToken
      tokenExpiry :=
        match tokens.expires_in with
        | some n =>
          if n ≠ 0 then some (toString (now + n * 1000)) else store.tokenExpiry
        | none => store.tokenExpiry }

/-- AuthService.logout: deletes every SECURE_STORE_KEYS entry except
DEVICE_ID, which is filtered out of the deletion list. -/
def logout (store : AuthStore) : AuthStore :=
  { vaultUrl := none, codeVerifier := none, state := none, accessToken := none,
    refreshToken := none, tokenExpiry := none, deviceId := store.deviceId }

/-- AuthService.clearStoredAuthData: deletes every SECURE_STORE_KEYS entry,
the device identifier included (Object.values over all seven keys). -/
def clearStoredAuthData (_store : AuthStore) : AuthStore :=
  { vaultUrl := none, codeVerifier := none, state := none, accessToken := none,
    refreshToken := none, tokenExpiry := none, deviceId := none }

/-- The outcome of the network POST to the oauth token refresh endpoint,
supplied by the environment: either a token payload or a transport error. -/
inductive RefreshResult where
  | payload (tokens : TokenPayload)
  | netError (msg : String)
deriving DecidableEq, Repr

/-- AuthService.refreshToken: requires a truthy stored vault URL and refresh
token, then posts to the refresh endpoint (the response is the resp
parameter) and stores the resulting token set with storeTokens. -/
def refreshToken (resp : RefreshResult) (now : Int) (store : AuthStore) :
    Except String AuthStore :=
  if ¬ truthy store.vaultUrl then
    .error "No vault URL found - cannot refresh token."
  else if ¬ truthy store.refreshToken then
    .error "No refresh token found - user must log in again."
  else
    match resp with
    | .netError msg => .error msg
    | .payload tokens => storeTokens tokens now store

/-- The value of the JavaScript Number() conversion on a stored expiry string,
restricted to the decimal-integer strings the service itself produces; any
other string is treated as NaN (none), on which every >= comparison is false. -/
def jsNumber (s : String) : Option Int :=
  let digitsToNat? : List Char → Option Nat := fun cs =>
    if cs.isEmpty then none
    else if cs.all Char.isDigit then
      some (cs.foldl (fun n c => n * 10 + (c.toNat - 48)) 0)
    else none
  match s.data with
  | [] => none
  | hd :: tl =>
    if hd = '-' then (digitsToNat? tl).map (fun n => -(n : Int))
    else (digitsToNat? s.data).map (fun n => (n : Int))

/-- The proactive-refresh buffer EXPIRY_BUFFER_MS (60 seconds). -/
def EXPIRY_BUFFER_MS : Int := 60 * 1000

/-- AuthService.getAccessToken: returns null when the stored access token is
falsy; returns the token directly when it is not expiring soon (no expiry
stored, unparsable expiry, or now < expiry - buffer); otherwise runs
refreshToken and re-reads the stored access token on success, or performs
logout and returns null on failure. The pair is (returned value, resulting
store). -/
def getAccessToken (resp : RefreshResult) (now : Int) (store : AuthStore) :
    Option String × AuthStore :=
  match store.accessToken with
  | none => (none, store)
  | some tok =>
    if tok = "" then (none, store)
    else
      let isExpiringSoon : Bool :=
        match store.tokenExpiry with
        | none => false
        | some e =>
          if e = "" then false
          else
            match jsNumber e with
            | some n => decide (now ≥ n - EXPIRY_BUFFER_MS)
            | none => false
      if ¬ isExpiringSoon then (some tok, store)
      else
        match refreshToken resp now store with
        | .ok store2 => (store2.accessToken, store2)
        | .error _ => (none, logout store)

/-- The LoginScreen success path after the token exchange: storeTokens on the
received payload followed immediately by clearStoredAuthData (the screen reads
the stored code verifier in between, which does not change the store). -/
def loginSuccessStorePhase (p : TokenPayload) (now : Int) (s : AuthStore) :
    Except String AuthStore :=
  (storeTokens p now s).map clearStoredAuthData

/-- Outcome of AuthService.handleCallback on a parsed callback URL. -/
inductive CallbackOutcome where
  | authorizationError (description : String)
  | missingCode
  | missingState
  | stateMismatch
  | ok (code : String)
deriving DecidableEq, Repr

/-- AuthService.handleCallback: the get argument is URLSearchParams.get on the
callback URL's query (none when the parameter is absent), storedState is the
state value previously persisted in SecureStore. Mirrors the source order:
server error first, then missing code, missing state, state comparison. -/
def handleCallback (get : String → Option String) (storedState : Option String) :
    CallbackOutcome :=
  let serverError := get "error"
  if truthy serverError then
    let description :=
      match get "error_description" with
      | some d => d
      | none => serverError.getD ""
    .authorizationError description
  else
    let code := get "code"
    let returnedState := get "state"
    if ¬ truthy code then .missingCode
    else if ¬ truthy returnedState then .missingState
    else if returnedState ≠ storedState then .stateMismatch
    else .ok (code.getD "")

/-- The LoginScreen login flow up to the token-endpoint call: runs
handleCallback and invokes exchangeCodeForToken (the token endpoint) only when
a code is returned. The boolean records whether the token endpoint was
called. -/
def handleCallbackThenExchange (get : String → Option String)
    (storedState : Option String) : CallbackOutcome × Bool :=
  match handleCallback get storedState with
  | .ok code => (.ok code, true)
  | other => (other, false)

/-- A JSON value as produced by JSON.parse. Numbers are kept exact as an
integer mantissa together with a power-of-ten exponent; the float rounding of
the JavaScript engine is not modelled (the tokens the store decodes use
integral numbers). -/
inductive JsonVal where
  | null
  | bool (b : Bool)
  | num (mantissa : Int) (exp10 : Int)
  | str (s : String)
  | arr (elems : List JsonVal)
  | obj (fields : List (String × JsonVal))

/-- JSON whitespace characters: space, tab, line feed, carriage return. -/
def jsonWsChar (c : Char) : Bool :=
  c == ' ' || c.toNat == 9 || c.toNat == 10 || c.toNat == 13

/-- Drop leading JSON whitespace. -/
def skipWs (cs : List Char) : List Char := cs.dropWhile jsonWsChar

/-- Hexadecimal digit value. -/
def hexVal (c : Char) : Option Nat :=
  let n := c.toNat
  if 48 ≤ n ∧ n ≤ 57 then some (n - 48)
  else if 65 ≤ n ∧ n ≤ 70 then some (n - 55)
  else if 97 ≤ n ∧ n ≤ 102 then some (n - 87)
  else none

/-- Value of a list of decimal digit characters. -/
def digitsToNat (cs : List Char) : Nat :=
  cs.foldl (fun n c => n * 10 + (c.toNat - 48)) 0

/-- JSON string body parser (called after the opening quote): handles the
JSON escape sequences and rejects raw control characters; returns the decoded
string and the input following the closing quote. -/
def parseJStringAux : Nat → List Char → List Char → Option (String × List Char)
  | 0, _, _ => none
  | Nat.succ fuel, acc, cs =>
    match cs with
    | [] => none
    | c :: rest =>
      if c = '"' then some (String.mk acc.reverse, rest)
      else if c = '\\' then
        match rest with
        | [] => none
        | e :: rest2 =>
          if e = '"' then parseJStringAux fuel ('"' :: acc) rest2
          else if e = '\\' then parseJStringAux fuel ('\\' :: acc) rest2
          else if e = '/' then parseJStringAux fuel ('/' :: acc) rest2
          else if e = 'b' then parseJStringAux fuel (Char.ofNat 8 :: acc) rest2
          else if e = 'f' then parseJStringAux fuel (Char.ofNat 12 :: acc) rest2
          else if e = 'n' then parseJStringAux fuel (Char.ofNat 10 :: acc) rest2
          else if e = 'r' then parseJStringAux fuel (Char.ofNat 13 :: acc) rest2
          else if e = 't' then parseJStringAux fuel (Char.ofNat 9 :: acc) rest2
          else if e = 'u' then
            match rest2 with
            | h1 :: h2 :: h3 :: h4 :: rest3 =>
              match hexVal h1, hexVal h2, hexVal h3, hexVal h4 with
              | some a, some b, some c3, some d =>
                parseJStringAux fuel
                  (Char.ofNat (((a * 16 + b) * 16 + c3) * 16 + d) :: acc) rest3
              | _, _, _, _ => none
            | _ => none
          else none
      else if c.toNat < 32 then none
      else parseJStringAux fuel (c :: acc) rest

/-- JSON number parser, following the JSON grammar (optional minus, integer
part without leading zeros, optional fraction, optional exponent); the value
is returned as mantissa and power-of-ten exponent. -/
def parseJNum (cs : List Char) : Option (JsonVal × List Char) :=
  let (neg, cs1) :=
    match cs with
    | c :: rest => if c = '-' then (true, rest) else (false, cs)
    | [] => (false, [])
  let intDs := cs1.takeWhile Char.isDigit
  let cs2 := cs1.dropWhile Char.isDigit
  if intDs = [] then none
  else if intDs.length > 1 && intDs.headD ' ' == '0' then none
  else
    let hasFrac := match cs2 with | c :: _ => c == '.' | [] => false
    if hasFrac && (cs2.tail.takeWhile Char.isDigit).isEmpty then none
    else
      let fracDs := if hasFrac then cs2.tail.takeWhile Char.isDigit else []
      let cs3 := if hasFrac then cs2.tail.dropWhile Char.isDigit else cs2
      let mant : Int :=
        (if neg then (-1 : Int) else 1) *
          ((digitsToNat intDs * 10 ^ fracDs.length + digitsToNat fracDs : Nat) : Int)
      let hasExp := match cs3 with | c :: _ => c == 'e' || c == 'E' | [] => false
      if hasExp then
        let cs4 := cs3.tail
        let (expNeg, cs5) :=
          match cs4 with
          | c :: rest =>
            if c = '+' then (false, rest)
            else if c = '-' then (true, rest)
            else (false, cs4)
          | [] => (false, [])
        let expDs := cs5.takeWhile Char.isDigit
        let cs6 := cs5.dropWhile Char.isDigit
        if expDs = [] then none
        else
          some (.num mant
            ((if expNeg then -(digitsToNat expDs : Int) else (digitsToNat expDs : Int))
              - (fracDs.length : Int)), cs6)
      else
        some (.num mant (-(fracDs.length : Int)), cs3)

/-- JSON value parser (fuel-indexed). Arrays and objects after a comma are
parsed by re-entering with a synthetic opening bracket, rejecting trailing
commas first; this mirrors the JSON grammar accepted by JSON.parse. -/
def parseJsonVal : Nat → List Char → Option (JsonVal × List Char)
  | 0, _ => none
  | Nat.succ fuel, cs0 =>
    match skipWs cs0 with
    | [] => none
    | c :: rest =>
      if c = 'n' then
        match rest with
        | 'u' :: 'l' :: 'l' :: r => some (.null, r)
        | _ => none
      else if c = 't' then
        match rest with
        | 'r' :: 'u' :: 'e' :: r => some (.bool true, r)
        | _ => none
      else if c = 'f' then
        match rest with
        | 'a' :: 'l' :: 's' :: 'e' :: r => some (.bool false, r)
        | _ => none
      else if c = '"' then
        match parseJStringAux (rest.length + 1) [] rest with
        | some (s, r) => some (.str s, r)
        | none => none
      else if c = '[' then
        match skipWs rest with
        | ']' :: r => some (.arr [], r)
        | _ =>
          match parseJsonVal fuel rest with
          | none => none
          | some (v, r1) =>
            match skipWs r1 with
            | ']' :: r2 => some (.arr [v], r2)
            | ',' :: r2 =>
              match skipWs r2 with
              | ']' :: _ => none
              | _ =>
                match parseJsonVal fuel ('[' :: r2) with
                | some (.arr vs, r3) => some (.arr (v :: vs), r3)
                | _ => none
            | _ => none
      else if c = Char.ofNat 123 then
        match skipWs rest with
        | [] => none
        | q :: r =>
          if q = Char.ofNat 125 then some (.obj [], r)
          else if q = '"' then
            match parseJStringAux (r.length + 1) [] r with
            | none => none
            | some (k, r1) =>
              match skipWs r1 with
              | ':' :: r2 =>
                match parseJsonVal fuel r2 with
                | none => none
                | some (v, r3) =>
                  match skipWs r3 with
                  | [] => none
                  | q2 :: r4 =>
                    if q2 = Char.ofNat 125 then some (.obj [(k, v)], r4)
                    else if q2 = ',' then
                      match skipWs r4 with
                      | q3 :: _ =>
                        if q3 = Char.ofNat 125 then none
                        else
                          match parseJsonVal fuel (Char.ofNat 123 :: r4) with
                          | some (.obj kvs, r5) => some (.obj ((k, v) :: kvs), r5)
                          | _ => none
                      | [] => none
                    else none
              | _ => none
          else none
      else if c = '-' ∨ c.isDigit then
        parseJNum (c :: rest)
      else none

/-- JSON.parse: parse one value, demand only whitespace after it; any failure
is an exception (none). -/
def jsonParse (s : String) : Option JsonVal :=
  match parseJsonVal (s.data.length + 2) s.data with
  | some (v, rest) => if (skipWs rest).isEmpty then some v else none
  | none => none

/-- JavaScript property read obj.key on a parsed JSON value: the last binding
wins for duplicate keys; any non-object yields undefined (none). -/
def jsonField (v : JsonVal) (key : String) : Option JsonVal :=
  match v with
  | .obj kvs => ((kvs.filter (fun kv => kv.1 == key)).getLast?).map (fun kv => kv.2)
  | _ => none

/-- Base64 alphabet value of a character, none outside the alphabet. -/
def b64CharVal (c : Char) : Option Nat :=
  let n := c.toNat
  if 65 ≤ n ∧ n ≤ 90 then some (n - 65)
  else if 97 ≤ n ∧ n ≤ 122 then some (n - 97 + 26)
  else if 48 ≤ n ∧ n ≤ 57 then some (n - 48 + 52)
  else if c = '+' then some 62
  else if c = '/' then some 63
  else none

/-- Bytes of a list of base64 sextets, with the forgiving-base64 handling of
a trailing group of two or three characters. -/
def b64BytesOf : List Nat → List Nat
  | a :: b :: c :: d :: rest =>
    (a * 4 + b / 16) :: ((b % 16) * 16 + c / 4) :: ((c % 4) * 64 + d) ::
      b64BytesOf rest
  | [a, b] => [a * 4 + b / 16]
  | [a, b, c] => [a * 4 + b / 16, (b % 16) * 16 + c / 4]
  | _ => []

/-- The atob builtin (WHATWG forgiving-base64 decode): strip ASCII
whitespace, strip up to two trailing padding equals signs when the length is
a multiple of four, reject a remaining length of one modulo four and any character
outside the base64 alphabet, and emit one Latin-1 character per decoded
byte. Errors are none. -/
def atob (s : String) : Option (List Char) :=
  let data0 := s.data.filter (fun c =>
    !(c == ' ' || c.toNat == 9 || c.toNat == 10 || c.toNat == 12 || c.toNat == 13))
  let data :=
    if data0.length % 4 = 0 then
      if data0.getLast? = some '=' then
        let d1 := data0.dropLast
        if d1.getLast? = some '=' then d1.dropLast else d1
      else data0
    else data0
  if data.length % 4 = 1 then none
  else
    match data.mapM b64CharVal with
    | none => none
    | some vals => some ((b64BytesOf vals).map Char.ofNat)

/-- Two-digit zero-padded decimal. -/
def pad2 (n : Nat) : String :=
  if n < 10 then "0" ++ toString n else toString n

/-- Three-digit zero-padded decimal. -/
def pad3 (n : Nat) : String :=
  if n < 10 then "00" ++ toString n
  else if n < 100 then "0" ++ toString n
  else toString n

/-- Four-digit zero-padded decimal. -/
def pad4 (n : Nat) : String :=
  if n < 10 then "000" ++ toString n
  else if n < 100 then "00" ++ toString n
  else if n < 1000 then "0" ++ toString n
  else toString n

/-- Gregorian calendar date of a day count since 1970-01-01 (civil-from-days
algorithm): year, month, day. -/
def civilFromDays (z : Int) : Int × Nat × Nat :=
  let z2 := z + 719468
  let era : Int := Int.fdiv z2 146097
  let doe : Nat := (z2 - era * 146097).toNat
  let yoe : Nat := (doe - doe / 1460 + doe / 36524 - doe / 146096) / 365
  let y : Int := (yoe : Int) + era * 400
  let doy : Nat := doe - (365 * yoe + yoe / 4 - yoe / 100)
  let mp : Nat := (5 * doy + 2) / 153
  let d : Nat := doy - (153 * mp + 2) / 5 + 1
  let m : Nat := if mp < 10 then mp + 3 else mp - 9
  (if m ≤ 2 then y + 1 else y, m, d)

/-- Rendering of a representable millisecond timestamp in the
YYYY-MM-DDTHH:mm:ss.sssZ shape of Date.prototype.toISOString. This is the
pure formatter; the Date range check (RangeError) sits in dateToISOString,
which is the full model of new Date(ms).toISOString(). The formatter is also
used directly for the now + 30 days default of addDestination, where the
source calls toISOString outside any catch on a clock-derived value that is
always representable. -/
def toISOString (ms : Int) : String :=
  let day : Int := Int.fdiv ms 86400000
  let msOfDay : Nat := (ms - day * 86400000).toNat
  let ymd := civilFromDays day
  let hh := msOfDay / 3600000
  let mi := msOfDay % 3600000 / 60000
  let ss := msOfDay % 60000 / 1000
  let mss := msOfDay % 1000
  pad4 ymd.1.toNat ++ "-" ++ pad2 ymd.2.1 ++ "-" ++ pad2 ymd.2.2 ++ "T" ++
    pad2 hh ++ ":" ++ pad2 mi ++ ":" ++ pad2 ss ++ "." ++ pad3 mss ++ "Z"

/-- Millisecond value of new Date(x * 1000) for x = m * 10 ^ e10: exact
arithmetic with truncation toward zero in place of the engine's float
multiply and ToInteger truncation. -/
def jsMulToMs (m e10 : Int) : Int :=
  if 0 ≤ e10 then m * 1000 * 10 ^ e10.toNat
  else Int.tdiv (m * 1000) (10 ^ (-e10).toNat)

/-- The maximum time value of a JavaScript Date: 8.64e15 milliseconds either
side of the epoch (100 million days). -/
def TIME_RANGE_MS : Int := 8640000000000000

/-- Full model of new Date(ms).toISOString(): renders the timestamp when it
is within the representable Date range and throws a RangeError (none) on an
invalid out-of-range date. -/
def dateToISOString (ms : Int) : Option String :=
  if -TIME_RANGE_MS ≤ ms ∧ ms ≤ TIME_RANGE_MS then some (toISOString ms)
  else none

/-- The decoded expiresAt property of a destination token: the first half of
parseExpiresAtFromToken, before the Date conversion. Undo the URL-safe
character replacements, atob-decode the whole token string, JSON.parse the
decoded text and read the expiresAt property (a read on null throws into the
same catch and is none here as well). -/
def tokenExpiresAtClaim (token : String) : Option JsonVal :=
  let base64 := String.mk (token.data.map (fun c =>
    if c = '-' then '+' else if c = '_' then '/' else c))
  match atob base64 with
  | none => none
  | some chars =>
    match jsonParse (String.mk chars) with
    | none => none
    | some v => jsonField v "expiresAt"

/-- UploadDestinations parseExpiresAtFromToken: decode the token's expiresAt
property and render new Date(exp * 1000).toISOString() when that property is
a number; every failure lands in the catch and yields null — including the
RangeError that the Date conversion throws when exp * 1000 falls outside the
representable range of 8.64e15 milliseconds either side of the epoch. -/
def parseExpiresAtFromToken (token : String) : Option String :=
  match tokenExpiresAtClaim token with
  | some (.num m e10) => dateToISOString (jsMulToMs m e10)
  | _ => none

/-- Split a character list at the first occurrence of the "://" separator. -/
def splitScheme : List Char → Option (List Char × List Char)
  | [] => none
  | ':' :: '/' :: '/' :: rest => some ([], rest)
  | c :: rest =>
    match splitScheme rest with
    | some (a, b) => some (c :: a, b)
    | none => none

/-- Remove a single trailing slash (the replace with an unanchored-count
regex matching one slash at the end). -/
def stripTrailingSlashOnce (s : String) : String :=
  match s.data.getLast? with
  | some c => if c = '/' then String.mk s.data.dropLast else s
  | none => s

/-- UploadDestinations normalizeServerUrl. The WHATWG URL constructor is
modelled for the inputs the store meets: an absolute URL is an alphabetic
nonempty scheme, the "://" separator and a nonempty host read up to the
first slash, question mark or hash, with scheme and host lowercased; on any
other input the constructor throws and the fallback strips one trailing
slash from the raw string. -/
def normalizeServerUrl (server : String) : String :=
  match splitScheme server.data with
  | some (schemeCs, restCs) =>
    let hostCs := restCs.takeWhile (fun c => !(c == '/' || c == '?' || c == '#'))
    if schemeCs ≠ [] ∧ schemeCs.all Char.isAlpha ∧ hostCs ≠ [] then
      String.mk (schemeCs.map Char.toLower) ++ "://" ++
        String.mk (hostCs.map Char.toLower)
    else stripTrailingSlashOnce server
  | none => stripTrailingSlashOnce server

/-- A stored upload destination record. -/
structure UploadDestination where
  id : String
  name : String
  server : String
  token : String
  expiresAt : String
deriving DecidableEq, Repr

/-- UploadDestinations addDestination, acting on the decoded destination
list: find an existing entry by normalized server, decode the token expiry
(default now + 30 days), build the new destination keeping the existing id
when found (fresh uuid otherwise), then keep every entry with a different
normalized server and append the new one. -/
def addDestination (freshId : String) (now : Int) (server token : String)
    (name : Option String) (list : List UploadDestination) :
    List UploadDestination :=
  let normalized := normalizeServerUrl server
  let existing := list.find? (fun d => normalizeServerUrl d.server == normalized)
  let expiresAt := (parseExpiresAtFromToken token).getD
    (toISOString (now + 30 * 24 * 60 * 60 * 1000))
  let newDest : UploadDestination :=
    { id := match existing with | some d => d.id | none => freshId
      name := match name with
        | some n => if n.trim ≠ "" then n.trim else normalized
        | none => normalized
      server := normalized
      token := token
      expiresAt := expiresAt }
  (list.filter (fun d => normalizeServerUrl d.server != normalized)) ++ [newDest]

/-- UploadDestinations getAllDestinations: reads the stored JSON under the
destinations key (none when nothing is stored); a falsy raw value, a parse
exception (swallowed by the catch) or a non-array parse all give the empty
list, and a parsed array is returned as is. -/
def getAllDestinations (raw : Option String) : List JsonVal :=
  match raw with
  | none => []
  | some s =>
    if s = "" then []
    else
      match jsonParse s with
      | none => []
      | some (.arr elems) => elems
      | some _ => []

/-- The standard base64 alphabet character of a six-bit value. -/
def b64Char (n : Nat) : Char :=
  if n < 26 then Char.ofNat (65 + n)
  else if n < 52 then Char.ofNat (97 + (n - 26))
  else if n < 62 then Char.ofNat (48 + (n - 52))
  else if n = 62 then '+'
  else '/'

/-- The btoa builtin over the byte values of the binary string built from the
random bytes: standard base64 with '=' padding. -/
def btoa : List Nat → List Char
  | b1 :: b2 :: b3 :: rest =>
    b64Char (b1 / 4) :: b64Char ((b1 % 4) * 16 + b2 / 16) ::
      b64Char ((b2 % 16) * 4 + b3 / 64) :: b64Char (b3 % 64) :: btoa rest
  | [b1, b2] =>
    [b64Char (b1 / 4), b64Char ((b1 % 4) * 16 + b2 / 16),
     b64Char ((b2 % 16) * 4), '=']
  | [b1] => [b64Char (b1 / 4), b64Char ((b1 % 4) * 16), '=', '=']
  | [] => []

/-- The URL-safe character replacements of base64URLEncode. -/
def urlRepl (c : Char) : Char :=
  if c = '+' then '-' else if c = '/' then '_' else c

/-- AuthService base64URLEncode: btoa, then plus to minus, slash to
underscore, and strip the trailing padding. -/
def base64URLEncode (bytes : List Nat) : String :=
  String.mk ((((btoa bytes).map urlRepl).reverse.dropWhile
    (fun c => c == '=')).reverse)

/-- AuthService.generateCodeVerifier: base64URLEncode of the 32 random bytes
delivered by the secure random source (modelled as the byte-list input). -/
def generateCodeVerifier (randomBytes : List Nat) : String :=
  base64URLEncode randomBytes

/-- Membership in the URL-safe base64 alphabet A-Z a-z 0-9 minus underscore. -/
def isUrlSafeChar (c : Char) : Bool :=
  c.isAlpha || c.isDigit || c == '-' || c == '_'

/-- The destination-store shape the dedup logic maintains when servers are
normalization-fixed: stored servers pairwise distinct and themselves
normalized. -/
def DedupInv (l : List UploadDestination) : Prop :=
  l.Pairwise (fun a b => a.server ≠ b.server) ∧
  ∀ d ∈ l, normalizeServerUrl d.server = d.server

/-- Continuation outcome delivered to a request whose 401 recovery went
through a refresh cycle: resumed and retried with the fresh token, or
rejected with the refresh failure. -/
inductive ContinuationOutcome where
  | retried (newToken : String)
  | rejected (err : String)
deriving DecidableEq, Repr

/-- Cooperative phase of the response interceptor's refresh cycle: no cycle
running, the awaited refresh network call, or the awaited logout after a
failed refresh (the isRefreshing flag is still set there, because the finally
clause only runs after await AuthService.logout() resolves). -/
inductive RefreshPhase where
  | idle
  | inFlight
  | loggingOut (err : String)
deriving DecidableEq, Repr

/-- The ApiClient response interceptor's shared state: the module-level
isRefreshing flag and refreshQueue, the owner of the running refresh, the
phase of that cycle, the requests whose 401 token_expired handlers have not
run yet, the continuations already resumed with their outcome, the number of
refresh network calls started, and whether a logout completed. -/
structure ApiState where
  isRefreshing : Bool
  refreshQueue : List Nat
  owner : Option Nat
  phase : RefreshPhase
  pending : List Nat
  completed : List (Nat × ContinuationOutcome)
  refreshesStarted : Nat
  loggedOut : Bool
deriving DecidableEq, Repr

/-- Initial interceptor state for a set of in-flight requests that all fail
with 401 token_expired. -/
def apiInit (requests : List Nat) : ApiState :=
  { isRefreshing := false, refreshQueue := [], owner := none, phase := .idle,
    pending := requests, completed := [], refreshesStarted := 0,
    loggedOut := false }

/-- One cooperative step of the response interceptor's recovery logic: a
401 handler runs and either pushes its continuation on the queue (flag set)
or becomes the owner, sets the flag and starts the refresh network call; the
owning refresh settles, synchronously draining the whole queue with one
broadcast outcome, clearing the flag at once on success but keeping it set
through the awaited logout on failure; the logout completes and the finally
clause clears the flag. -/
inductive Step : ApiState → ApiState → Prop where
  | enterQueue (s : ApiState) (r : Nat) (hr : r ∈ s.pending)
      (hflag : s.isRefreshing = true) :
      Step s { s with pending := s.pending.erase r,
                      refreshQueue := s.refreshQueue ++ [r] }
  | enterOwn (s : ApiState) (r : Nat) (hr : r ∈ s.pending)
      (hflag : s.isRefreshing = false) :
      Step s { s with pending := s.pending.erase r,
                      isRefreshing := true, phase := .inFlight,
                      owner := some r,
                      refreshesStarted := s.refreshesStarted + 1 }
  | settleSuccess (s : ApiState) (r : Nat) (tok : String)
      (hphase : s.phase = .inFlight) (howner : s.owner = some r) :
      Step s { s with
        completed := s.completed ++
          s.refreshQueue.map (fun q => (q, .retried tok)) ++
          [(r, .retried tok)],
        refreshQueue := [], owner := none, phase := .idle,
        isRefreshing := false }
  | settleFailure (s : ApiState) (r : Nat) (err : String)
      (hphase : s.phase = .inFlight) (howner : s.owner = some r) :
      Step s { s with
        completed := s.completed ++
          s.refreshQueue.map (fun q => (q, .rejected err)) ++
          [(r, .rejected err)],
        refreshQueue := [], owner := none, phase := .loggingOut err }
  | logoutDone (s : ApiState) (err : String)
      (hphase : s.phase = .loggingOut err) :
      Step s { s with phase := .idle, isRefreshing := false,
                      loggedOut := true }

/-- States reachable from an initial interceptor state by interleaved steps. -/
inductive Reachable (init : ApiState) : ApiState → Prop where
  | refl : Reachable init init
  | tail {s s2} : Reachable init s → Step s s2 → Reachable init s2

/-- The flag discipline the interceptor maintains: the isRefreshing flag is
set exactly while a refresh cycle is running (network call or post-failure
logout), and an in-flight refresh has an owner. -/
def FlagInv (s : ApiState) : Prop :=
  (s.isRefreshing = true ↔ s.phase ≠ RefreshPhase.idle) ∧
  (s.phase = RefreshPhase.inFlight → s.owner.isSome = true)

/-- Query map of the C2 counterexample: an error parameter present with empty
value, plus a valid code and state. -/
def c2Params : String → Option String := fun k =>
  if k = "error" then some ""
  else if k = "code" then some "C"
  else if k = "state" then some "S"
  else none

/-- Query map of the C2 witness: a valid code with a state that does not
match the stored one. -/
def c2wParams : String → Option String := fun k =>
  if k = "code" then some "C2" else if k = "state" then some "S2" else none

/-- C6: logout() deletes every session key (vault URL, code verifier, state,
access token, refresh token, token expiry) and leaves the stored device
identifier unchanged, for every starting store state. -/
theorem logout_clears_session_preserves_deviceId (s : AuthStore) :
    (logout s).vaultUrl = none ∧ (logout s).codeVerifier = none ∧
    (logout s).state = none ∧ (logout s).accessToken = none ∧
    (logout s).refreshToken = none ∧ (logout s).tokenExpiry = none ∧
    (logout s).deviceId = s.deviceId := by
  simp [logout]

/-- C6 witness: logout at a concrete fully-populated store clears the six
session keys and keeps the device identifier. -/
theorem logout_clears_session_preserves_deviceId_witness :
    (logout { vaultUrl := some "v", codeVerifier := some "c", state := some "s",
              accessToken := some "a", refreshToken := some "r",
              tokenExpiry := some "t", deviceId := some "d" }).vaultUrl = none ∧
    (logout { vaultUrl := some "v", codeVerifier := some "c", state := some "s",
              accessToken := some "a", refreshToken := some "r",
              tokenExpiry := some "t", deviceId := some "d" }).accessToken = none ∧
    (logout { vaultUrl := some "v", codeVerifier := some "c", state := some "s",
              accessToken := some "a", refreshToken := some "r",
              tokenExpiry := some "t", deviceId := some "d" }).deviceId = some "d" := by
  have h := logout_clears_session_preserves_deviceId
    { vaultUrl := some "v", codeVerifier := some "c", state := some "s",
      accessToken := some "a", refreshToken := some "r",
      tokenExpiry := some "t", deviceId := some "d" }
  exact ⟨h.1, h.2.2.2.1, h.2.2.2.2.2.2⟩

/-- C5 counterexample: the claim says the expiry is persisted exactly when
expires_in is present and left unset otherwise; with expires_in = 0 (present)
and a previously stored expiry of "999", storeTokens keeps the old "999"
instead of persisting now + 0*1000 = "5000", and the expiry is not unset. -/
theorem storeTokens_expiry_zero_counterexample :
    storeTokens
        { access_token := some "a", refresh_token := none, expires_in := some 0 }
        5000
        { vaultUrl := none, codeVerifier := none, state := none,
          accessToken := none, refreshToken := none, tokenExpiry := some "999",
          deviceId := none } =
      Except.ok
        { vaultUrl := none, codeVerifier := none, state := none,
          accessToken := some "a", refreshToken := none,
          tokenExpiry := some "999", deviceId := none } ∧
    some "999" ≠ some (toString ((5000 : Int) + 0 * 1000)) ∧
    some "999" ≠ (none : Option String) := by
  refine ⟨by rfl, by decide, by decide⟩

/-- C5 amended: storeTokens fails when access_token is absent or empty; on
success it persists the access token, persists the refresh token only when a
nonempty refresh_token is present (keeping the previously stored one
otherwise), and persists expiresAt = now + expires_in*1000 exactly when
expires_in is present and nonzero, keeping the previously stored expiry
otherwise; the other store keys are untouched. -/
theorem storeTokens_correct (p : TokenPayload) (now : Int) (s : AuthStore) :
    (truthy p.access_token = false →
      storeTokens p now s = .error "Token response is missing access_token.") ∧
    (∀ s', storeTokens p now s = .ok s' →
      s'.accessToken = p.access_token ∧
      (truthy p.refresh_token = true → s'.refreshToken = p.refresh_token) ∧
      (truthy p.refresh_token = false → s'.refreshToken = s.refreshToken) ∧
      (∀ n, p.expires_in = some n → n ≠ 0 →
        s'.tokenExpiry = some (toString (now + n * 1000))) ∧
      ((p.expires_in = none ∨ p.expires_in = some 0) →
        s'.tokenExpiry = s.tokenExpiry) ∧
      s'.vaultUrl = s.vaultUrl ∧ s'.codeVerifier = s.codeVerifier ∧
      s'.state = s.state ∧ s'.deviceId = s.deviceId) := by
  constructor
  · intro h
    simp [storeTokens, h]
  · intro s' h
    rw [storeTokens] at h
    by_cases ht : truthy p.access_token
    · rw [if_neg (by simp [ht])] at h
      cases h
      refine ⟨rfl, ?_, ?_, ?_, ?_, rfl, rfl, rfl, rfl⟩
      · intro hrt
        simp [hrt]
      · intro hrt
        simp [hrt]
      · intro n hn hnz
        simp [hn, hnz]
      · rintro (h0 | h0) <;> simp [h0]
    · rw [if_pos (by simp [ht])] at h
      cases h

/-- Helper: a successful storeTokens stores exactly the payload access token. -/
theorem storeTokens_ok_accessToken (p : TokenPayload) (now : Int)
    (s s' : AuthStore) (h : storeTokens p now s = .ok s') :
    s'.accessToken = p.access_token := by
  rw [storeTokens] at h
  by_cases ht : truthy p.access_token
  · rw [if_neg (by simp [ht])] at h
    cases h
    rfl
  · rw [if_pos (by simp [ht])] at h
    cases h

/-- Helper: a successful refreshToken on a payload response went through
storeTokens on that payload. -/
theorem refreshToken_ok_elim (p : TokenPayload) (now : Int) (s s2 : AuthStore)
    (h : refreshToken (.payload p) now s = .ok s2) :
    storeTokens p now s = .ok s2 := by
  rw [refreshToken] at h
  by_cases h1 : truthy s.vaultUrl
  · rw [if_neg (by simp [h1])] at h
    by_cases h2 : truthy s.refreshToken
    · rwa [if_neg (by simp [h2])] at h
    · rw [if_pos (by simp [h2])] at h
      cases h
  · rw [if_pos (by simp [h1])] at h
    cases h

/-- C5 witness: storeTokens at a concrete successful payload. -/
theorem storeTokens_correct_witness :
    (storeTokens { access_token := some "tok", refresh_token := some "r",
                   expires_in := some 7 } 1000
      { vaultUrl := some "v", codeVerifier := none, state := none,
        accessToken := none, refreshToken := none, tokenExpiry := none,
        deviceId := some "d" }).isOk = true ∧
    (∀ s', storeTokens { access_token := some "tok", refresh_token := some "r",
                         expires_in := some 7 } 1000
      { vaultUrl := some "v", codeVerifier := none, state := none,
        accessToken := none, refreshToken := none, tokenExpiry := none,
        deviceId := some "d" } = .ok s' →
      s'.accessToken = some "tok" ∧ s'.refreshToken = some "r" ∧
      s'.tokenExpiry = some (toString ((1000 : Int) + 7 * 1000)) ∧
      s'.deviceId = some "d") := by
  constructor
  · decide
  · intro s' h
    have hc := (storeTokens_correct
      { access_token := some "tok", refresh_token := some "r", expires_in := some 7 }
      1000
      { vaultUrl := some "v", codeVerifier := none, state := none,
        accessToken := none, refreshToken := none, tokenExpiry := none,
        deviceId := some "d" }).2 s' h
    exact ⟨hc.1, hc.2.1 (by decide), hc.2.2.2.1 7 rfl (by decide),
      hc.2.2.2.2.2.2.2.2⟩

/-- Helper: a some value is truthy exactly when it is nonempty. -/
theorem truthy_some_iff (s : String) : truthy (some s) = true ↔ s ≠ "" := by
  simp [truthy]

/-- C2 counterexample: a callback URL carrying an error query parameter (with
empty value) together with a valid code and matching state; the claim says
handleCallback must fail with the authorization error, but it returns the
code successfully, because the empty string is falsy in the if (serverError)
check. -/
theorem handleCallback_empty_error_counterexample :
    c2Params "error" = some "" ∧
    handleCallback c2Params (some "S") = .ok "C" := by
  exact ⟨rfl, by rfl⟩

/-- C2 amended: with presence and absence of callback parameters read through
JavaScript truthiness (a parameter with empty value counts as absent), the
claimed failure order holds: a nonempty error parameter fails with the
authorization error carrying error_description when that parameter is present
and the raw error code when it is absent; otherwise an absent-or-empty code
fails with the missing-code error; otherwise an absent-or-empty state fails
with the missing-state error; otherwise a returned state different from the
stored one fails with the state-mismatch error and the token endpoint is
never called; only when the states match is the extracted code returned. -/
theorem handleCallback_correct (get : String → Option String)
    (stored : Option String) :
    (∀ e, get "error" = some e → e ≠ "" →
      (∀ d, get "error_description" = some d →
        handleCallback get stored = .authorizationError d) ∧
      (get "error_description" = none →
        handleCallback get stored = .authorizationError e)) ∧
    (truthy (get "error") = false →
      (truthy (get "code") = false →
        handleCallback get stored = .missingCode) ∧
      (∀ c, get "code" = some c → c ≠ "" →
        (truthy (get "state") = false →
          handleCallback get stored = .missingState) ∧
        (∀ st, get "state" = some st → st ≠ "" →
          (some st ≠ stored →
            handleCallback get stored = .stateMismatch ∧
            (handleCallbackThenExchange get stored).2 = false) ∧
          (some st = stored →
            handleCallback get stored = .ok c ∧
            (handleCallbackThenExchange get stored).2 = true)))) ∧
    (∀ c, handleCallback get stored = .ok c →
      get "code" = some c ∧ get "state" = stored) := by
  refine ⟨?_, ?_, ?_⟩
  · intro e he hne
    constructor
    · intro d hd
      simp only [handleCallback, he, hd]
      rw [if_pos ((truthy_some_iff e).mpr hne)]
    · intro hd
      simp only [handleCallback, he, hd]
      rw [if_pos ((truthy_some_iff e).mpr hne)]
      rfl
  · intro herr
    constructor
    · intro hcode
      simp only [handleCallback]
      rw [if_neg (by simp [herr])]
      rw [if_pos (by simp [hcode])]
    · intro c hc hcne
      constructor
      · intro hstate
        simp only [handleCallback]
        rw [if_neg (by simp [herr])]
        rw [if_neg (by simp [hc, truthy, hcne])]
        rw [if_pos (by simp [hstate])]
      · intro st hst hstne
        constructor
        · intro hmis
          constructor
          · simp only [handleCallback]
            rw [if_neg (by simp [herr])]
            rw [if_neg (by simp [hc, truthy, hcne])]
            rw [if_neg (by simp [hst, truthy, hstne])]
            rw [if_pos (by simp [hst]; exact fun h => hmis (by rw [h]))]
          · rw [handleCallbackThenExchange]
            have hcb : handleCallback get stored = .stateMismatch := by
              simp only [handleCallback]
              rw [if_neg (by simp [herr])]
              rw [if_neg (by simp [hc, truthy, hcne])]
              rw [if_neg (by simp [hst, truthy, hstne])]
              rw [if_pos (by simp [hst]; exact fun h => hmis (by rw [h]))]
            rw [hcb]
        · intro hmatch
          have hcb : handleCallback get stored = .ok c := by
            simp only [handleCallback]
            rw [if_neg (by simp [herr])]
            rw [if_neg (by simp [hc, truthy, hcne])]
            rw [if_neg (by simp [hst, truthy, hstne])]
            rw [if_neg (by rw [hst]; simp [hmatch])]
            simp [hc]
          refine ⟨hcb, ?_⟩
          rw [handleCallbackThenExchange, hcb]
  · intro c hok
    rw [handleCallback] at hok
    by_cases h1 : truthy (get "error")
    · rw [if_pos h1] at hok
      cases hok
    · rw [if_neg h1] at hok
      by_cases h2 : truthy (get "code")
      · rw [if_neg (by simp [h2])] at hok
        by_cases h3 : truthy (get "state")
        · rw [if_neg (by simp [h3])] at hok
          by_cases h4 : get "state" = stored
          · rw [if_neg (by simp [h4])] at hok
            rcases hc : get "code" with _ | cv
            · rw [hc] at h2
              simp [truthy] at h2
            · rw [hc] at hok
              simp only [Option.getD_some] at hok
              cases hok
              exact ⟨rfl, h4⟩
          · rw [if_pos h4] at hok
            cases hok
        · rw [if_pos h3] at hok
          cases hok
      · rw [if_pos h2] at hok
        cases hok

/-- C2 witness: a mismatched state fails with the state-mismatch error and
the token endpoint is not called. -/
theorem handleCallback_correct_witness :
    handleCallback c2wParams (some "S1") = .stateMismatch ∧
    (handleCallbackThenExchange c2wParams (some "S1")).2 = false := by
  exact ((((handleCallback_correct c2wParams (some "S1")).2.1 (by decide)).2
    "C2" rfl (by decide)).2 "S2" rfl (by decide)).1 (by decide)

/-- C3 counterexample: with a stored but empty access token and expiry set to
now + 120 seconds (now = 0, expiry "120000", well before the 60s buffer), the
claim says the stored token is returned unchanged; getAccessToken returns
null instead, because the empty string is falsy in the !accessToken check. -/
theorem getAccessToken_empty_token_counterexample :
    getAccessToken (.netError "down") 0
        { vaultUrl := none, codeVerifier := none, state := none,
          accessToken := some "", refreshToken := none,
          tokenExpiry := some "120000", deviceId := none } =
      (none,
        { vaultUrl := none, codeVerifier := none, state := none,
          accessToken := some "", refreshToken := none,
          tokenExpiry := some "120000", deviceId := none }) ∧
    (0 : Int) < 120000 - EXPIRY_BUFFER_MS ∧
    (none : Option String) ≠ some "" := by
  refine ⟨by rfl, by decide, by decide⟩

/-- C3 amended: getAccessToken returns null when no access token is stored or
the stored token is the empty string; when a nonempty token is stored with a
numeric expiry and now is strictly before expiry minus the 60s buffer it
returns the stored token and leaves the store unchanged (no refresh); when now
is at or past expiry minus the buffer it attempts a refresh, returning the
newly stored token on success and performing a full logout and returning null
on failure. -/
theorem getAccessToken_correct (resp : RefreshResult) (now : Int)
    (s : AuthStore) :
    (s.accessToken = none → getAccessToken resp now s = (none, s)) ∧
    (s.accessToken = some "" → getAccessToken resp now s = (none, s)) ∧
    (∀ tok, s.accessToken = some tok → tok ≠ "" →
      ∀ e n, s.tokenExpiry = some e → e ≠ "" → jsNumber e = some n →
        (now < n - EXPIRY_BUFFER_MS →
          getAccessToken resp now s = (some tok, s)) ∧
        (now ≥ n - EXPIRY_BUFFER_MS →
          (∀ s2, refreshToken resp now s = .ok s2 →
            getAccessToken resp now s = (s2.accessToken, s2) ∧
            (∀ p, resp = .payload p → s2.accessToken = p.access_token)) ∧
          (∀ err, refreshToken resp now s = .error err →
            getAccessToken resp now s = (none, logout s)))) := by
  refine ⟨?_, ?_, ?_⟩
  · intro h
    simp [getAccessToken, h]
  · intro h
    simp [getAccessToken, h]
  · intro tok htok hne e n he hee hn
    constructor
    · intro hlt
      simp only [getAccessToken, htok, he, hn]
      rw [if_neg hne, if_neg hee]
      rw [if_pos (by simp only [decide_eq_true_eq]; omega)]
    · intro hge
      have hcond : (decide (now ≥ n - EXPIRY_BUFFER_MS)) = true := by
        simpa using hge
      constructor
      · intro s2 hr
        constructor
        · simp only [getAccessToken, htok, he, hn]
          rw [if_neg hne, if_neg hee]
          rw [if_neg (by simp only [not_not, decide_eq_true_eq]; omega)]
          rw [hr]
        · intro p hp
          subst hp
          have hst := refreshToken_ok_elim p now s s2 hr
          exact storeTokens_ok_accessToken p now s s2 hst
      · intro err hr
        simp only [getAccessToken, htok, he, hn]
        rw [if_neg hne, if_neg hee]
        rw [if_neg (by simp only [not_not, decide_eq_true_eq]; omega)]
        rw [hr]

/-- C3 witness: a token expiring in 30 seconds triggers a refresh; with the
refresh failing (no refresh token stored), the result is a full logout and a
null return. -/
theorem getAccessToken_correct_witness :
    getAccessToken (.netError "down") 1000000
        { vaultUrl := some "https://v.example", codeVerifier := none,
          state := none, accessToken := some "tok", refreshToken := none,
          tokenExpiry := some "1030000", deviceId := some "dev" } =
      (none,
        { vaultUrl := none, codeVerifier := none, state := none,
          accessToken := none, refreshToken := none, tokenExpiry := none,
          deviceId := some "dev" }) := by
  have hc := (getAccessToken_correct (.netError "down") 1000000
    { vaultUrl := some "https://v.example", codeVerifier := none,
      state := none, accessToken := some "tok", refreshToken := none,
      tokenExpiry := some "1030000", deviceId := some "dev" }).2.2
    "tok" rfl (by decide) "1030000" 1030000 rfl (by decide) (by decide)
  have h2 := (hc.2 (by decide)).2
    "No refresh token found - user must log in again." (by rfl)
  rw [h2]
  rfl

/-- C9: clearStoredAuthData deletes every SECURE_STORE_KEYS entry, the device
identifier, the vault URL and both tokens included (unlike logout, which
preserves the device identifier); the login success path runs it immediately
after storeTokens, so a successful browser login leaves the just-stored
tokens and the device identifier erased. -/
theorem clearStoredAuthData_erases_everything :
    (∀ s : AuthStore, clearStoredAuthData s =
      { vaultUrl := none, codeVerifier := none, state := none,
        accessToken := none, refreshToken := none, tokenExpiry := none,
        deviceId := none }) ∧
    (∀ s : AuthStore,
      (clearStoredAuthData s).deviceId = none ∧
      (logout s).deviceId = s.deviceId) ∧
    (∀ p now s s', loginSuccessStorePhase p now s = .ok s' →
      s'.accessToken = none ∧ s'.refreshToken = none ∧
      s'.tokenExpiry = none ∧ s'.deviceId = none ∧ s'.vaultUrl = none) := by
  refine ⟨fun s => rfl, fun s => ⟨rfl, rfl⟩, ?_⟩
  intro p now s s' h
  rw [loginSuccessStorePhase] at h
  cases hst : storeTokens p now s with
  | error e =>
    rw [hst] at h
    cases h
  | ok t =>
    rw [hst] at h
    cases h
    exact ⟨rfl, rfl, rfl, rfl, rfl⟩

/-- C9 witness: a concrete successful login store phase ends with an empty
store. -/
theorem clearStoredAuthData_erases_everything_witness :
    loginSuccessStorePhase
        { access_token := some "tok", refresh_token := some "r",
          expires_in := some 60 } 0
        { vaultUrl := some "https://v.example", codeVerifier := some "cv",
          state := some "st", accessToken := none, refreshToken := none,
          tokenExpiry := none, deviceId := some "dev" } =
      Except.ok
        { vaultUrl := none, codeVerifier := none, state := none,
          accessToken := none, refreshToken := none, tokenExpiry := none,
          deviceId := none } ∧
    ({ vaultUrl := none, codeVerifier := none, state := none,
       accessToken := none, refreshToken := none, tokenExpiry := none,
       deviceId := none } : AuthStore).accessToken = none ∧
    ({ vaultUrl := none, codeVerifier := none, state := none,
       accessToken := none, refreshToken := none, tokenExpiry := none,
       deviceId := none } : AuthStore).deviceId = none := by
  have h : loginSuccessStorePhase
      { access_token := some "tok", refresh_token := some "r",
        expires_in := some 60 } 0
      { vaultUrl := some "https://v.example", codeVerifier := some "cv",
        state := some "st", accessToken := none, refreshToken := none,
        tokenExpiry := none, deviceId := some "dev" } =
      Except.ok
        { vaultUrl := none, codeVerifier := none, state := none,
          accessToken := none, refreshToken := none, tokenExpiry := none,
          deviceId := none } := by rfl
  have hc := clearStoredAuthData_erases_everything.2.2
    { access_token := some "tok", refresh_token := some "r",
      expires_in := some 60 } 0
    { vaultUrl := some "https://v.example", codeVerifier := some "cv",
      state := some "st", accessToken := none, refreshToken := none,
      tokenExpiry := none, deviceId := some "dev" }
    { vaultUrl := none, codeVerifier := none, state := none,
      accessToken := none, refreshToken := none, tokenExpiry := none,
      deviceId := none } h
  exact ⟨h, hc.1, hc.2.2.2.1⟩

/-- C10: getAllDestinations is total at its interface and always returns a
list: the empty list when nothing is stored, when the stored value is not
valid JSON (the read error is swallowed) and when the parsed JSON is not an
array; a parsed array is returned as is. -/
theorem getAllDestinations_total :
    (getAllDestinations none = []) ∧
    (∀ s, jsonParse s = none → getAllDestinations (some s) = []) ∧
    (∀ s v, jsonParse s = some v → (∀ elems, v ≠ JsonVal.arr elems) →
      getAllDestinations (some s) = []) ∧
    (∀ s elems, jsonParse s = some (.arr elems) →
      getAllDestinations (some s) = elems) ∧
    getAllDestinations (some "not json") = [] := by
  refine ⟨rfl, ?_, ?_, ?_, by rfl⟩
  · intro s h
    by_cases hs : s = ""
    · subst hs
      rfl
    · simp [getAllDestinations, hs, h]
  · intro s v h hne
    by_cases hs : s = ""
    · subst hs
      rfl
    · cases v with
      | arr elems => exact absurd rfl (hne elems)
      | null => simp [getAllDestinations, hs, h]
      | bool b => simp [getAllDestinations, hs, h]
      | num m e => simp [getAllDestinations, hs, h]
      | str st => simp [getAllDestinations, hs, h]
      | obj kvs => simp [getAllDestinations, hs, h]
  · intro s elems h
    by_cases hs : s = ""
    · subst hs
      rw [show jsonParse "" = none from rfl] at h
      cases h
    · simp [getAllDestinations, hs, h]

/-- C10 witness: undecodable JSON and a non-array value give the empty list
and an array is passed through. -/
theorem getAllDestinations_total_witness :
    getAllDestinations (some "oops") = [] ∧
    getAllDestinations (some "true") = [] ∧
    getAllDestinations (some "[true]") = [JsonVal.bool true] := by
  refine ⟨getAllDestinations_total.2.1 "oops" (by rfl),
    getAllDestinations_total.2.2.1 "true" (JsonVal.bool true) (by rfl) ?_,
    getAllDestinations_total.2.2.2.1 "[true]" [JsonVal.bool true] (by rfl)⟩
  intro elems hne
  cases hne

/-- C4 counterexample: the server string "x//" does not parse as a URL and the
fallback normalization strips only one trailing slash, so the stored server
"x/" is not normalization-fixed; adding "x//" twice therefore leaves two
stored destinations for the same normalized server instead of exactly one. -/
theorem addDestination_duplicate_counterexample :
    (addDestination "id2" 0 "x//" "t2" none
      (addDestination "id1" 0 "x//" "t1" none [])).length = 2 ∧
    normalizeServerUrl "x//" = "x/" ∧
    normalizeServerUrl "x/" = "x" := by
  refine ⟨by rfl, by rfl, by rfl⟩

/-- C4 amended: for every server whose normalized form is itself fixed under
normalization (true of every parseable absolute URL), adding twice with the
same server and different tokens leaves exactly one stored destination,
carrying the second call's token and name and the id minted by the first
call; the add preserves the one-destination-per-normalized-origin shape on
such stores; and the two URLs of the claim collide to the same normalized
destination. -/
theorem addDestination_dedup (server t1 t2 id1 id2 : String)
    (now1 now2 : Int) (n1 n2 : Option String)
    (hfix : normalizeServerUrl (normalizeServerUrl server) =
      normalizeServerUrl server) :
    ((addDestination id1 now1 server t1 n1 []).map (fun d => d.id) = [id1] ∧
      addDestination id2 now2 server t2 n2
          (addDestination id1 now1 server t1 n1 []) =
        [{ id := id1
           name := match n2 with
             | some n =>
               if n.trim ≠ "" then n.trim else normalizeServerUrl server
             | none => normalizeServerUrl server
           server := normalizeServerUrl server
           token := t2
           expiresAt := (parseExpiresAtFromToken t2).getD
             (toISOString (now2 + 30 * 24 * 60 * 60 * 1000)) }]) ∧
    (∀ l, DedupInv l → DedupInv (addDestination id1 now1 server t1 n1 l)) ∧
    normalizeServerUrl "https://Vault.Example.com/foo/bar" =
      normalizeServerUrl "https://vault.example.com" := by
  refine ⟨⟨by simp [addDestination], ?_⟩, ?_, by rfl⟩
  · simp [addDestination, List.find?, List.filter, hfix]
  · intro l hinv
    constructor
    · simp only [addDestination]
      rw [List.pairwise_append]
      refine ⟨hinv.1.sublist (List.filter_sublist _),
        List.pairwise_singleton _ _, ?_⟩
      intro a ha b hb
      rw [List.mem_singleton] at hb
      subst hb
      rw [List.mem_filter] at ha
      have hfixa := hinv.2 a ha.1
      have hane : normalizeServerUrl a.server ≠ normalizeServerUrl server := by
        simpa using ha.2
      simp only []
      intro hcontra
      exact hane (by rw [hfixa]; exact hcontra)
    · simp only [addDestination]
      intro d hd
      rw [List.mem_append] at hd
      cases hd with
      | inl hmem => exact hinv.2 d (List.mem_of_mem_filter hmem)
      | inr hmem =>
        rw [List.mem_singleton] at hmem
        subst hmem
        simpa using hfix

/-- C4 witness: a concrete second add for an already-stored normalized server
overwrites in place: one destination, second token, first id. -/
theorem addDestination_dedup_witness :
    addDestination "id2" 0 "https://vault.example.com" "t2" none
      (addDestination "id1" 0 "https://vault.example.com" "t1" none []) =
    [{ id := "id1", name := "https://vault.example.com",
       server := "https://vault.example.com", token := "t2",
       expiresAt := "1970-01-31T00:00:00.000Z" }] := by
  have h := (addDestination_dedup "https://vault.example.com" "t1" "t2"
    "id1" "id2" 0 0 none none (by rfl)).1.2
  exact h

/-- Helper: after the URL-safe replacement every base64 alphabet character is
URL-safe and distinct from the padding character. -/
theorem b64Char_urlRepl_safe : ∀ n : Fin 64,
    isUrlSafeChar (urlRepl (b64Char n)) = true ∧ urlRepl (b64Char n) ≠ '=' := by
  decide

/-- Helper: btoa of a byte list of length 3k + 2 is 4k + 3 alphabet
characters followed by exactly one padding character. -/
theorem btoa_two_mod_three (k : Nat) :
    ∀ bytes : List Nat, bytes.length = 3 * k + 2 → (∀ b ∈ bytes, b < 256) →
    ∃ cs : List Char, btoa bytes = cs ++ ['='] ∧
      cs.length = 4 * k + 3 ∧ ∀ c ∈ cs, ∃ n : Nat, n < 64 ∧ c = b64Char n := by
  induction k with
  | zero =>
    intro bytes hlen hb
    obtain ⟨b1, b2, rfl⟩ : ∃ x y, bytes = [x, y] := by
      rcases bytes with _ | ⟨x, _ | ⟨y, _ | ⟨z, r⟩⟩⟩
      · simp at hlen
      · simp at hlen
      · exact ⟨x, y, rfl⟩
      · simp only [List.length_cons] at hlen
        omega
    have hb1 : b1 < 256 := hb b1 (by simp)
    have hb2 : b2 < 256 := hb b2 (by simp)
    refine ⟨[b64Char (b1 / 4), b64Char ((b1 % 4) * 16 + b2 / 16),
      b64Char ((b2 % 16) * 4)], rfl, rfl, ?_⟩
    intro c hc
    simp only [List.mem_cons, List.not_mem_nil, or_false] at hc
    rcases hc with rfl | rfl | rfl
    · exact ⟨b1 / 4, by omega, rfl⟩
    · exact ⟨(b1 % 4) * 16 + b2 / 16, by omega, rfl⟩
    · exact ⟨(b2 % 16) * 4, by omega, rfl⟩
  | succ k ih =>
    intro bytes hlen hb
    obtain ⟨b1, b2, b3, rest, rfl⟩ : ∃ x y z r, bytes = x :: y :: z :: r := by
      rcases bytes with _ | ⟨x, _ | ⟨y, _ | ⟨z, r⟩⟩⟩
      · simp at hlen
      · simp at hlen
      · simp only [List.length_cons, List.length_nil] at hlen
        omega
      · exact ⟨x, y, z, r, rfl⟩
    have hb1 : b1 < 256 := hb b1 (by simp)
    have hb2 : b2 < 256 := hb b2 (by simp)
    have hb3 : b3 < 256 := hb b3 (by simp)
    have hrest : rest.length = 3 * k + 2 := by
      simp only [List.length_cons] at hlen
      omega
    obtain ⟨cs, hcs, hcslen, hmem⟩ := ih rest hrest
      (fun b hbmem => hb b (by simp [hbmem]))
    refine ⟨b64Char (b1 / 4) :: b64Char ((b1 % 4) * 16 + b2 / 16) ::
      b64Char ((b2 % 16) * 4 + b3 / 64) :: b64Char (b3 % 64) :: cs, ?_, ?_, ?_⟩
    · show btoa (b1 :: b2 :: b3 :: rest) = _
      rw [show btoa (b1 :: b2 :: b3 :: rest) =
        b64Char (b1 / 4) :: b64Char ((b1 % 4) * 16 + b2 / 16) ::
          b64Char ((b2 % 16) * 4 + b3 / 64) :: b64Char (b3 % 64) ::
          btoa rest from rfl]
      rw [hcs]
      rfl
    · simp only [List.length_cons, hcslen]
      omega
    · intro c hc
      simp only [List.mem_cons] at hc
      rcases hc with rfl | rfl | rfl | rfl | h
      · exact ⟨b1 / 4, by omega, rfl⟩
      · exact ⟨(b1 % 4) * 16 + b2 / 16, by omega, rfl⟩
      · exact ⟨(b2 % 16) * 4 + b3 / 64, by omega, rfl⟩
      · exact ⟨b3 % 64, by omega, rfl⟩
      · exact hmem c h

/-- Helper: dropWhile of the padding test is the identity on lists free of
the padding character. -/
theorem dropWhile_padding_eq_self (l : List Char)
    (h : ∀ c ∈ l, (c == ('=' : Char)) = false) :
    l.dropWhile (fun c => c == '=') = l := by
  cases l with
  | nil => rfl
  | cons x xs =>
    rw [List.dropWhile_cons_of_neg]
    simpa using h x (by simp)

/-- C7: for every 32-byte input, generateCodeVerifier returns a
base64url-encoded string of exactly 43 characters drawn from the URL-safe
alphabet, with no padding character. -/
theorem generateCodeVerifier_spec (bytes : List Nat)
    (hlen : bytes.length = 32) (hb : ∀ b ∈ bytes, b < 256) :
    (generateCodeVerifier bytes).length = 43 ∧
    ((generateCodeVerifier bytes).data.all isUrlSafeChar) = true ∧
    '=' ∉ (generateCodeVerifier bytes).data := by
  obtain ⟨cs, hcs, hcslen, hmem⟩ := btoa_two_mod_three 10 bytes (by omega) hb
  have hsafe : ∀ c ∈ cs.map urlRepl,
      isUrlSafeChar c = true ∧ c ≠ '=' := by
    intro c hc
    rw [List.mem_map] at hc
    obtain ⟨c0, hc0, rfl⟩ := hc
    obtain ⟨n, hn, rfl⟩ := hmem c0 hc0
    exact b64Char_urlRepl_safe ⟨n, hn⟩
  have hmap : (btoa bytes).map urlRepl = cs.map urlRepl ++ ['='] := by
    rw [hcs, List.map_append]
    rfl
  have hdrop : (((btoa bytes).map urlRepl).reverse.dropWhile
      (fun c => c == '=')).reverse = cs.map urlRepl := by
    rw [hmap, List.reverse_append]
    rw [show (['='] : List Char).reverse = ['='] from rfl]
    rw [show (['='] : List Char) ++ (cs.map urlRepl).reverse =
      '=' :: (cs.map urlRepl).reverse from rfl]
    rw [List.dropWhile_cons_of_pos (by simp)]
    rw [dropWhile_padding_eq_self _ (by
      intro c hc
      rw [List.mem_reverse] at hc
      simpa using (hsafe c hc).2)]
    rw [List.reverse_reverse]
  have hgen : generateCodeVerifier bytes = String.mk (cs.map urlRepl) := by
    rw [generateCodeVerifier, base64URLEncode, hdrop]
  refine ⟨?_, ?_, ?_⟩
  · rw [hgen]
    show (cs.map urlRepl).length = 43
    rw [List.length_map, hcslen]
  · rw [hgen]
    show (cs.map urlRepl).all isUrlSafeChar = true
    rw [List.all_eq_true]
    intro c hc
    exact (hsafe c hc).1
  · rw [hgen]
    show '=' ∉ cs.map urlRepl
    intro hc
    exact (hsafe _ hc).2 rfl

/-- C7 witness: a concrete 32-byte input produces a 43-character padding-free
URL-safe verifier. -/
theorem generateCodeVerifier_spec_witness :
    (List.range 32).length = 32 ∧
    (generateCodeVerifier (List.range 32)).length = 43 ∧
    ((generateCodeVerifier (List.range 32)).data.all isUrlSafeChar) = true ∧
    '=' ∉ (generateCodeVerifier (List.range 32)).data := by
  have h := generateCodeVerifier_spec (List.range 32) (by decide)
    (fun b hbm => by
      have := List.mem_range.mp hbm
      omega)
  exact ⟨by decide, h.1, h.2.1, h.2.2⟩

/-- Helper: every reachable interceptor state obeys the flag discipline. -/
theorem flagInv_reachable (reqs : List Nat) (s : ApiState)
    (h : Reachable (apiInit reqs) s) : FlagInv s := by
  induction h with
  | refl => exact ⟨by simp [apiInit], by simp [apiInit]⟩
  | tail hreach hstep ih =>
    cases hstep with
    | enterQueue r hr hflag => exact ⟨by simpa using ih.1, by simpa using ih.2⟩
    | enterOwn r hr hflag => exact ⟨by simp, by simp⟩
    | settleSuccess r tok hphase howner => exact ⟨by simp, by simp⟩
    | settleFailure r err hphase howner =>
      have hfl := ih.1.mpr (by rw [hphase]; simp)
      exact ⟨by simp [hfl], by simp⟩
    | logoutDone err hphase => exact ⟨by simp, by simp⟩

/-- C1 amended: refresh ownership is single-flight: a refresh network call
only starts when no refresh cycle is running, so at most one is in flight at
any time; while the flag is set a 401 handler queues its continuation instead
of starting a second refresh; when the owning refresh settles, every
continuation then on the wait list receives the same broadcast outcome (the
one new token on success, the refresh failure on failure), and on failure a
full logout is then performed before the flag clears. (A request that fails
over after a failed refresh settles but before its logout completes is queued
while the flag is still set and is not resumed by that settled cycle.) -/
theorem refresh_single_flight (reqs : List Nat) :
    (∀ s s2, Reachable (apiInit reqs) s → Step s s2 →
      s2.refreshesStarted = s.refreshesStarted + 1 →
      s.phase = RefreshPhase.idle ∧ s.isRefreshing = false ∧
        s2.phase = RefreshPhase.inFlight) ∧
    (∀ s s2, Step s s2 → s.isRefreshing = true →
      s2.refreshesStarted = s.refreshesStarted ∧
      (∀ r, r ∈ s.pending → r ∉ s2.pending → r ∈ s2.refreshQueue)) ∧
    (∀ s s2, Step s s2 → s.phase = RefreshPhase.inFlight →
      (s2.phase = RefreshPhase.inFlight ∧ s2.completed = s.completed) ∨
      (∃ tok r, s.owner = some r ∧ s2.phase = RefreshPhase.idle ∧
        s2.isRefreshing = false ∧ s2.refreshQueue = [] ∧
        s2.completed = s.completed ++
          s.refreshQueue.map (fun q => (q, ContinuationOutcome.retried tok)) ++
          [(r, ContinuationOutcome.retried tok)]) ∨
      (∃ err r, s.owner = some r ∧ s2.phase = RefreshPhase.loggingOut err ∧
        s2.refreshQueue = [] ∧
        s2.completed = s.completed ++
          s.refreshQueue.map (fun q => (q, ContinuationOutcome.rejected err)) ++
          [(r, ContinuationOutcome.rejected err)])) ∧
    (∀ s err, s.phase = RefreshPhase.loggingOut err →
      ∃ s2, Step s s2 ∧ s2.loggedOut = true ∧
        s2.phase = RefreshPhase.idle ∧ s2.isRefreshing = false) := by
  refine ⟨?_, ?_, ?_, ?_⟩
  · intro s s2 hreach hstep hcount
    have hinv := flagInv_reachable reqs s hreach
    cases hstep with
    | enterQueue r hr hflag => simp at hcount
    | enterOwn r hr hflag =>
      refine ⟨?_, hflag, by simp⟩
      by_contra hne
      have : s.isRefreshing = true := hinv.1.mpr hne
      rw [this] at hflag
      cases hflag
    | settleSuccess r tok hphase howner => simp at hcount
    | settleFailure r err hphase howner => simp at hcount
    | logoutDone err hphase => simp at hcount
  · intro s s2 hstep hflag
    cases hstep with
    | enterQueue r hr _ =>
      refine ⟨by simp, ?_⟩
      intro q hq hq2
      simp only [List.mem_append, List.mem_singleton]
      by_cases hqr : q = r
      · exact Or.inr hqr
      · exact absurd ((List.mem_erase_of_ne hqr).mpr hq) (by simpa using hq2)
    | enterOwn r hr hflag2 =>
      rw [hflag] at hflag2
      cases hflag2
    | settleSuccess r tok hphase howner =>
      exact ⟨by simp, fun q hq hq2 => absurd hq (by simpa using hq2)⟩
    | settleFailure r err hphase howner =>
      exact ⟨by simp, fun q hq hq2 => absurd hq (by simpa using hq2)⟩
    | logoutDone err hphase =>
      exact ⟨by simp, fun q hq hq2 => absurd hq (by simpa using hq2)⟩
  · intro s s2 hstep hphase
    cases hstep with
    | enterQueue r hr hflag => exact Or.inl ⟨hphase, by simp⟩
    | enterOwn r hr hflag => exact Or.inl ⟨by simp, by simp⟩
    | settleSuccess r tok hphase2 howner =>
      exact Or.inr (Or.inl ⟨tok, r, howner, by simp, by simp, by simp, by simp⟩)
    | settleFailure r err hphase2 howner =>
      exact Or.inr (Or.inr ⟨err, r, howner, by simp, by simp, by simp⟩)
    | logoutDone err hphase2 =>
      rw [hphase] at hphase2
      cases hphase2
  · intro s err hphase
    exact ⟨_, Step.logoutDone s err hphase, by simp, by simp, by simp⟩

/-- C1 witness: with a refresh already in flight (owned by request 1), the
handler of request 2 queues it and starts no second refresh. -/
theorem refresh_single_flight_witness :
    (({ isRefreshing := true, refreshQueue := [], owner := some 1,
        phase := .inFlight, pending := ([2] : List Nat).erase 2,
        completed := [], refreshesStarted := 1,
        loggedOut := false } : ApiState).refreshesStarted = 1) ∧
    2 ∈ (([] : List Nat) ++ [2]) := by
  have hstep : Step
      { isRefreshing := true, refreshQueue := [], owner := some 1,
        phase := .inFlight, pending := [2], completed := [],
        refreshesStarted := 1, loggedOut := false }
      { isRefreshing := true, refreshQueue := [] ++ [2], owner := some 1,
        phase := .inFlight, pending := ([2] : List Nat).erase 2,
        completed := [], refreshesStarted := 1, loggedOut := false } :=
    Step.enterQueue _ 2 (by decide) rfl
  have h := (refresh_single_flight [2]).2.1 _ _ hstep rfl
  exact ⟨h.1, h.2 2 (by decide) (by decide)⟩

/-- C1 counterexample: in the interleaving where the owning refresh fails,
request 2's 401 handler runs during the awaited logout: the flag is still
set so request 2 is queued, the already-settled cycle never resumes it, and
the system reaches a quiescent state (idle phase, nothing pending) where
request 2 sits on the wait list without having been rejected with the
failure, contradicting the claim that every waiting request is rejected. -/
theorem refresh_single_flight_counterexample :
    Reachable (apiInit [1, 2])
      { isRefreshing := false, refreshQueue := [2], owner := none,
        phase := .idle, pending := [],
        completed := [(1, ContinuationOutcome.rejected "boom")],
        refreshesStarted := 1, loggedOut := true } ∧
    (2, ContinuationOutcome.rejected "boom") ∉
      ([(1, ContinuationOutcome.rejected "boom")] :
        List (Nat × ContinuationOutcome)) := by
  constructor
  · have st1 : Step (apiInit [1, 2])
        { isRefreshing := true, refreshQueue := [], owner := some 1,
          phase := .inFlight, pending := [2], completed := [],
          refreshesStarted := 1, loggedOut := false } :=
      Step.enterOwn _ 1 (by decide) rfl
    have st2 : Step
        { isRefreshing := true, refreshQueue := [], owner := some 1,
          phase := .inFlight, pending := [2], completed := [],
          refreshesStarted := 1, loggedOut := false }
        { isRefreshing := true, refreshQueue := [], owner := none,
          phase := .loggingOut "boom", pending := [2],
          completed := [(1, ContinuationOutcome.rejected "boom")],
          refreshesStarted := 1, loggedOut := false } :=
      Step.settleFailure _ 1 "boom" rfl rfl
    have st3 : Step
        { isRefreshing := true, refreshQueue := [], owner := none,
          phase := .loggingOut "boom", pending := [2],
          completed := [(1, ContinuationOutcome.rejected "boom")],
          refreshesStarted := 1, loggedOut := false }
        { isRefreshing := true, refreshQueue := [2], owner := none,
          phase := .loggingOut "boom", pending := [],
          completed := [(1, ContinuationOutcome.rejected "boom")],
          refreshesStarted := 1, loggedOut := false } :=
      Step.enterQueue _ 2 (by decide) rfl
    have st4 : Step
        { isRefreshing := true, refreshQueue := [2], owner := none,
          phase := .loggingOut "boom", pending := [],
          completed := [(1, ContinuationOutcome.rejected "boom")],
          refreshesStarted := 1, loggedOut := false }
        { isRefreshing := false, refreshQueue := [2], owner := none,
          phase := .idle, pending := [],
          completed := [(1, ContinuationOutcome.rejected "boom")],
          refreshesStarted := 1, loggedOut := true } :=
      Step.logoutDone _ "boom" rfl
    exact Reachable.tail (Reachable.tail (Reachable.tail
      (Reachable.tail Reachable.refl st1) st2) st3) st4
  · decide

end Pulse
